import Mathlib

/-!
Verification of the pyeasylib utility library.

This file gives a shallow embedding of the functions of pyeasylib that the
checked properties talk about, and proves or refutes those properties.

Modelling conventions:
- A pandas cell value is modelled by `Val`: a string, an integer, or the
  missing value NaN (`Val.null`).
- A pandas DataFrame is modelled by `DataFrame`: an index (row labels), a
  list of column labels and a list of rows, each row a list of cells.
- Python functions that may raise return `Except PyError _`; each `PyError`
  constructor corresponds to one raise site of the source (the textual
  message is replaced by the structured payload it interpolates, because the
  exact rendering of Python sets and reprs is not deterministic).
- Mutation is modelled by explicit state passing: a function that could
  mutate its argument returns the caller-visible frame next to its result.
-/

/-- A pandas cell value: a string, an integer, or the missing value NaN. -/
inductive Val where
  | str (s : String)
  | int (n : Int)
  | null
deriving DecidableEq

/-- Structured stand-ins for the exception messages raised by the library.
Each constructor corresponds to one raise site in the source. -/
inductive PyError where
  /-- pd_functions.get_expected_data_row_locations: no row holds the expected values. -/
  | unableToIdentifyDataRow (expectedData : List Val)
  /-- base_datetime.ensure_correct_date_format: date_format not dmy/mdy/ymd. -/
  | notImplementedDateFormat
  /-- base_datetime.ensure_correct_date_format: chosen format contradicted by the
  day column being month names; alternatives lists the plausible orderings. -/
  | incorrectDateFormat (dateFormat : String) (alternatives : List String)
  /-- base_datetime.ensure_correct_date_format: pd.to_numeric failed on a cell. -/
  | toNumericFailure
  /-- base_datetime.ensure_correct_date_format: some row violates day/month/year bounds. -/
  | dateSeriesNotFormat (fmtKey : String)
  /-- base.assert_unique: duplicated values with their counts. -/
  | duplicatedData (dupCounts : List (Val × Nat))
  /-- base.assert_unique: TypeError escaping from value_counts().sort_index()
  when the object index holds both integers and strings, which Python
  refuses to compare. -/
  | sortTypeError
  /-- base.summarise_list: max_ends must be a positive integer. -/
  | invalidMaxEnds (maxEnds : Int)
  /-- dblib.pymssql.update: an identification column is absent from the data. -/
  | missingIdColumns (idCols : List String)
  /-- dblib.pymssql.delete: id_cols may not be empty. -/
  | emptyIdColumns
  /-- dblib.pymssql.delete: an identification column is absent from the dataframe. -/
  | missingIdColumnsInDf (idCols : List String)
  /-- dblib.pymssql.insert_dataframe: re-raised failure of df.to_sql. -/
  | insertFailed (tableName : String) (msg : String)
  /-- An exception of an inner call propagated unchanged. -/
  | propagated (msg : String)
deriving DecidableEq

/-! ## base.summarise_list (base.py lines 470-507) -/

/-- Embeds base.summarise_list.  The Python input-type check always passes here
because the input is typed as a list; the remaining branches follow the source:
empty input returns the empty list, non-positive max_ends raises, short inputs
are returned whole, and long inputs keep max_ends elements of each end around
the linker.  Python code inputlist[-max_ends:] is the last max_ends elements. -/
def summarise_list (inputlist : List Val) (maxEnds : Int) (linker : Val) :
    Except PyError (List Val) :=
  if inputlist.isEmpty then .ok []
  else if maxEnds ≤ 0 then .error (.invalidMaxEnds maxEnds)
  else
    let maxNum := maxEnds * 2
    if (inputlist.length : Int) ≤ maxNum then .ok inputlist
    else .ok (inputlist.take maxEnds.toNat ++ [linker] ++
              inputlist.drop (inputlist.length - maxEnds.toNat))

/-! ## base.assert_unique (base.py lines 367-385) -/

/-- Keeps the first occurrence of each value, dropping later duplicates,
relative to an accumulator of values already seen. -/
def dedupAux [DecidableEq α] : List α → List α → List α
  | [], _ => []
  | x :: xs, seen => if x ∈ seen then dedupAux xs seen else x :: dedupAux xs (x :: seen)

/-- Embeds pandas drop_duplicates on a flat list: first occurrences survive. -/
def dedupFirst [DecidableEq α] (l : List α) : List α := dedupAux l []

/-- Embeds pd.Series(data).value_counts(): occurrence counts of the non-null
values (value_counts drops NaN by default).  The pandas result is ordered by
descending count; the caller in the source immediately re-sorts it, so the
order produced here is first-occurrence order. -/
def valueCounts (data : List Val) : List (Val × Nat) :=
  let nonnull := data.filter (fun v => decide (v ≠ Val.null))
  (dedupFirst nonnull).map (fun v => (v, nonnull.countP (fun x => decide (x = v))))

/-- The comparisons sort_index applies within a homogeneous object index:
integers numerically and strings lexicographically.  A mixed int/str index
never reaches these comparisons, because sortIndexCounts raises the
TypeError first; the null arm is dead, value_counts having dropped NaN. -/
def valLe (a b : Val) : Bool :=
  match a, b with
  | .int m, .int n => m ≤ n
  | .int _, _ => true
  | .str _, .int _ => false
  | .str s, .str t => s ≤ t
  | .str _, .null => true
  | .null, .null => true
  | .null, _ => false

/-- Whether a cell value is an integer. -/
def Val.isInt : Val → Bool
  | .int _ => true
  | _ => false

/-- Whether a cell value is a string. -/
def Val.isStr : Val → Bool
  | .str _ => true
  | _ => false

/-- Embeds Series.sort_index on the value-counts series.  Its object index
holds the distinct non-null values; when integers and strings are both
present, the comparison sort underneath argsort must compare an integer with
a string and Python raises TypeError, so the sort fails before any duplicate
check can run; a homogeneous index is sorted by the in-type order. -/
def sortIndexCounts (counts : List (Val × Nat)) : Except PyError (List (Val × Nat)) :=
  if counts.any (fun p => p.1.isInt) ∧ counts.any (fun p => p.1.isStr) then
    .error .sortTypeError
  else
    .ok (List.insertionSort (fun a b : Val × Nat => valLe a.1 b.1 = true) counts)

/-- Embeds base.assert_unique: count the values, sort the counts by index
(which can itself raise on a mixed-type index), keep the counts above one,
and raise listing them when any exist. -/
def assert_unique (data : List Val) : Except PyError Unit :=
  match sortIndexCounts (valueCounts data) with
  | .error e => .error e
  | .ok countsSorted =>
    if 0 < (countsSorted.filter (fun p => decide (1 < p.2))).length then
      .error (.duplicatedData (countsSorted.filter (fun p => decide (1 < p.2))))
    else .ok ()

/-! ## Supporting lemmas -/

theorem mem_dedupAux [DecidableEq α] {a : α} :
    ∀ {l seen : List α}, a ∈ dedupAux l seen ↔ a ∈ l ∧ a ∉ seen := by
  intro l
  induction l with
  | nil => intro seen; simp [dedupAux]
  | cons x xs ih =>
    intro seen
    by_cases hx : x ∈ seen
    · rw [dedupAux, if_pos hx, ih, List.mem_cons]
      constructor
      · rintro ⟨h1, h2⟩; exact ⟨Or.inr h1, h2⟩
      · rintro ⟨rfl | h1, h2⟩
        · exact absurd hx h2
        · exact ⟨h1, h2⟩
    · rw [dedupAux, if_neg hx, List.mem_cons, ih, List.mem_cons, List.mem_cons]
      by_cases hax : a = x
      · subst hax; tauto
      · tauto

theorem mem_dedupFirst [DecidableEq α] {a : α} {l : List α} :
    a ∈ dedupFirst l ↔ a ∈ l := by
  simp [dedupFirst, mem_dedupAux]

theorem countP_nonnull_of_ne_null {data : List Val} {v : Val} (hv : v ≠ Val.null) :
    (data.filter (fun x => decide (x ≠ Val.null))).countP (fun x => decide (x = v)) =
      data.countP (fun x => decide (x = v)) := by
  rw [List.countP_filter]
  have hfg : (fun a => decide (a = v) && decide (a ≠ Val.null)) =
      (fun a => decide (a = v)) := by
    funext a
    by_cases ha : a = v
    · subst ha; simp [hv]
    · simp [ha]
  rw [hfg]

/-! ## Claim theorems for summarise_list and assert_unique -/

/-- C9: for a non-empty list and positive max_ends, summarise_list returns the
list itself when its length is at most twice max_ends, and otherwise the first
max_ends elements, the linker, and the last max_ends elements, a list of
exactly 2 * max_ends + 1 elements; for an empty input it returns the empty
list. -/
theorem claim_C9 (inputlist : List Val) (maxEnds : Int) (linker : Val)
    (hpos : 0 < maxEnds) :
    (inputlist = [] → summarise_list inputlist maxEnds linker = .ok [])
    ∧ (inputlist ≠ [] → (inputlist.length : Int) ≤ 2 * maxEnds →
        summarise_list inputlist maxEnds linker = .ok inputlist)
    ∧ (inputlist ≠ [] → 2 * maxEnds < (inputlist.length : Int) →
        summarise_list inputlist maxEnds linker =
          .ok (inputlist.take maxEnds.toNat ++ [linker] ++
               inputlist.drop (inputlist.length - maxEnds.toNat))
        ∧ ∀ out, summarise_list inputlist maxEnds linker = .ok out →
            (out.length : Int) = 2 * maxEnds + 1) := by
  refine ⟨?_, ?_, ?_⟩
  · intro h; subst h; simp [summarise_list]
  · intro hne hle
    simp only [summarise_list]
    rw [if_neg (by simpa [List.isEmpty_iff] using hne), if_neg (by omega),
        if_pos (by omega)]
  · intro hne hgt
    have heq : summarise_list inputlist maxEnds linker =
        .ok (inputlist.take maxEnds.toNat ++ [linker] ++
             inputlist.drop (inputlist.length - maxEnds.toNat)) := by
      simp only [summarise_list]
      rw [if_neg (by simpa [List.isEmpty_iff] using hne), if_neg (by omega),
          if_neg (by omega)]
    refine ⟨heq, ?_⟩
    intro out hout
    rw [heq] at hout
    have hout2 := Except.ok.inj hout
    subst hout2
    have hm : maxEnds.toNat ≤ inputlist.length := by omega
    simp only [List.length_append, List.length_take, List.length_drop,
      List.length_cons, List.length_nil]
    have hmin : min maxEnds.toNat inputlist.length = maxEnds.toNat :=
      Nat.min_eq_left hm
    rw [hmin]
    omega

/-- Concrete instance of claim_C9: a five-element list summarised with
max_ends equal to two. -/
theorem claim_C9_w :
    (0 : Int) < 2 ∧ summarise_list
      [Val.int 1, Val.int 2, Val.int 3, Val.int 4, Val.int 5] 2 (Val.str "...") =
      .ok [Val.int 1, Val.int 2, Val.str "...", Val.int 4, Val.int 5] := by
  refine ⟨by norm_num, ?_⟩
  have h := (claim_C9 [Val.int 1, Val.int 2, Val.int 3, Val.int 4, Val.int 5] 2
    (Val.str "...") (by norm_num)).2.2 (by decide) (by decide)
  exact h.1

/-- The duplicate check on an already-sorted counts list raises exactly when
some count is above one. -/
theorem dupCheck_error_iff (counts : List (Val × Nat)) :
    (∃ e, (if 0 < (counts.filter (fun p => decide (1 < p.2))).length then
        (Except.error (.duplicatedData (counts.filter (fun p => decide (1 < p.2)))) :
          Except PyError Unit)
      else .ok ()) = .error e) ↔ ∃ p ∈ counts, 1 < p.2 := by
  by_cases hc : 0 < (counts.filter (fun p => decide (1 < p.2))).length
  · rw [if_pos hc]
    constructor
    · intro _
      rcases List.exists_mem_of_ne_nil _ (List.length_pos.mp hc) with ⟨p, hp⟩
      have hp2 := List.mem_filter.mp hp
      exact ⟨p, hp2.1, by simpa using hp2.2⟩
    · intro _; exact ⟨_, rfl⟩
  · rw [if_neg hc]
    constructor
    · rintro ⟨e, he⟩; exact absurd he (by simp)
    · rintro ⟨p, hp, hp2⟩
      exfalso
      apply hc
      apply List.length_pos.mpr
      intro hnil
      have hfil : p ∈ counts.filter (fun p => decide (1 < p.2)) :=
        List.mem_filter.mpr ⟨hp, by simpa using hp2⟩
      rw [hnil] at hfil
      exact absurd hfil (by simp)

/-- A technical bridge: assert_unique raises exactly when the sort trips over
a mixed int/str index, or some entry of valueCounts has count above one. -/
theorem assert_unique_error_iff (data : List Val) :
    (∃ e, assert_unique data = .error e) ↔
    ((valueCounts data).any (fun p => p.1.isInt) = true
       ∧ (valueCounts data).any (fun p => p.1.isStr) = true)
    ∨ ∃ p ∈ valueCounts data, 1 < p.2 := by
  by_cases hmix : (valueCounts data).any (fun p => p.1.isInt) = true
      ∧ (valueCounts data).any (fun p => p.1.isStr) = true
  · have herr : assert_unique data = .error .sortTypeError := by
      unfold assert_unique sortIndexCounts
      rw [if_pos hmix]
    constructor
    · intro _; exact Or.inl hmix
    · intro _; exact ⟨_, herr⟩
  · have hperm := List.perm_insertionSort
      (fun a b : Val × Nat => valLe a.1 b.1 = true) (valueCounts data)
    have hau : assert_unique data =
        (if 0 < ((List.insertionSort (fun a b : Val × Nat => valLe a.1 b.1 = true)
              (valueCounts data)).filter (fun p => decide (1 < p.2))).length then
          .error (.duplicatedData
            ((List.insertionSort (fun a b : Val × Nat => valLe a.1 b.1 = true)
              (valueCounts data)).filter (fun p => decide (1 < p.2))))
        else .ok ()) := by
      unfold assert_unique sortIndexCounts
      rw [if_neg hmix]
    rw [hau, dupCheck_error_iff, or_iff_right hmix]
    constructor
    · rintro ⟨p, hp, hp2⟩; exact ⟨p, hperm.mem_iff.mp hp, hp2⟩
    · rintro ⟨p, hp, hp2⟩; exact ⟨p, hperm.mem_iff.mpr hp, hp2⟩

theorem mem_valueCounts {data : List Val} {p : Val × Nat}
    (hp : p ∈ valueCounts data) : p.1 ∈ data ∧ p.1 ≠ Val.null := by
  simp only [valueCounts, List.mem_map] at hp
  rcases hp with ⟨v, hv, rfl⟩
  have hv2 : v ∈ data.filter (fun x => decide (x ≠ Val.null)) :=
    mem_dedupFirst.mp hv
  have := List.mem_filter.mp hv2
  exact ⟨this.1, by simpa using this.2⟩

theorem valueCounts_mem_of_mem {data : List Val} {v : Val} (hv : v ∈ data)
    (hn : v ≠ Val.null) : ∃ k, (v, k) ∈ valueCounts data := by
  have hvf : v ∈ data.filter (fun x => decide (x ≠ Val.null)) :=
    List.mem_filter.mpr ⟨hv, by simpa using hn⟩
  refine ⟨(data.filter (fun x => decide (x ≠ Val.null))).countP
    (fun x => decide (x = v)), ?_⟩
  simp only [valueCounts, List.mem_map]
  exact ⟨v, mem_dedupFirst.mpr hvf, rfl⟩

/-- The index of the counts series mixes integers and strings exactly when
the data holds both an integer and a string. -/
theorem mixed_counts_iff (data : List Val) :
    ((valueCounts data).any (fun p => p.1.isInt) = true
       ∧ (valueCounts data).any (fun p => p.1.isStr) = true) ↔
    ((∃ m, Val.int m ∈ data) ∧ (∃ s, Val.str s ∈ data)) := by
  constructor
  · rintro ⟨hi, hs⟩
    rcases List.any_eq_true.mp hi with ⟨p, hp, hpi⟩
    rcases List.any_eq_true.mp hs with ⟨q, hq, hqs⟩
    have h1 := mem_valueCounts hp
    have h2 := mem_valueCounts hq
    constructor
    · rcases p with ⟨v, k⟩
      cases v with
      | int m => exact ⟨m, h1.1⟩
      | str s => exact absurd hpi (by simp [Val.isInt])
      | null => exact absurd hpi (by simp [Val.isInt])
    · rcases q with ⟨v, k⟩
      cases v with
      | str s => exact ⟨s, h2.1⟩
      | int m => exact absurd hqs (by simp [Val.isStr])
      | null => exact absurd hqs (by simp [Val.isStr])
  · rintro ⟨⟨m, hm⟩, ⟨s, hs⟩⟩
    obtain ⟨k1, hk1⟩ := valueCounts_mem_of_mem hm (fun h => Val.noConfusion h)
    obtain ⟨k2, hk2⟩ := valueCounts_mem_of_mem hs (fun h => Val.noConfusion h)
    exact ⟨List.any_eq_true.mpr ⟨_, hk1, rfl⟩, List.any_eq_true.mpr ⟨_, hk2, rfl⟩⟩

/-- C8 counterexample, refuting the claimed equivalence in both directions:
NaN occurs twice yet assert_unique returns normally (value_counts drops NaN
before counting), and a mix of an integer and a string has no value occurring
more than once yet assert_unique raises, because value_counts().sort_index()
hits the TypeError of comparing an integer with a string. -/
theorem claim_C8_cex :
    (assert_unique [Val.null, Val.null] = .ok ()
     ∧ 1 < List.countP (fun x => decide (x = Val.null)) [Val.null, Val.null])
    ∧ (assert_unique [Val.int 1, Val.str "a"] = .error .sortTypeError
       ∧ [Val.int 1, Val.str "a"].Nodup) :=
  ⟨⟨rfl, by decide⟩, rfl, by decide⟩

/-- C8 amended: assert_unique raises an exception exactly when some non-null
value occurs more than once in the input, or when the distinct non-null
values include both an integer and a string (the index sort then raises
TypeError before the duplicate check); otherwise it returns normally. -/
theorem claim_C8 (data : List Val) :
    (∃ e, assert_unique data = .error e) ↔
    ((∃ v, v ≠ Val.null ∧ 1 < data.countP (fun x => decide (x = v)))
     ∨ ((∃ m, Val.int m ∈ data) ∧ (∃ s, Val.str s ∈ data))) := by
  rw [assert_unique_error_iff]
  constructor
  · rintro (hmix | ⟨p, hp, hp2⟩)
    · exact Or.inr ((mixed_counts_iff data).mp hmix)
    · simp only [valueCounts, List.mem_map] at hp
      rcases hp with ⟨v, hv, rfl⟩
      have hv2 : v ∈ data.filter (fun x => decide (x ≠ Val.null)) :=
        mem_dedupFirst.mp hv
      have hvnull : v ≠ Val.null := by
        have := (List.mem_filter.mp hv2).2
        simpa using this
      refine Or.inl ⟨v, hvnull, ?_⟩
      rw [← countP_nonnull_of_ne_null hvnull]
      exact hp2
  · rintro (⟨v, hvnull, hcnt⟩ | hmixed)
    · have hcnt2 : 1 < (data.filter (fun x => decide (x ≠ Val.null))).countP
          (fun x => decide (x = v)) := by
        rw [countP_nonnull_of_ne_null hvnull]; exact hcnt
      have hmemf : v ∈ data.filter (fun x => decide (x ≠ Val.null)) := by
        have hpos : 0 < (data.filter (fun x => decide (x ≠ Val.null))).countP
            (fun x => decide (x = v)) := by omega
        rcases List.countP_pos_iff.mp hpos with ⟨a, ha, ha2⟩
        have : a = v := by simpa using ha2
        exact this ▸ ha
      refine Or.inr ⟨(v, (data.filter (fun x => decide (x ≠ Val.null))).countP
        (fun x => decide (x = v))), ?_, hcnt2⟩
      simp only [valueCounts, List.mem_map]
      exact ⟨v, mem_dedupFirst.mpr hmemf, rfl⟩
    · exact Or.inl ((mixed_counts_iff data).mpr hmixed)

/-! ## pdlib.pd_functions: DataFrames and header-row inference -/

/-- A pandas DataFrame: row labels, column labels, and the grid of cells.
Well-formed frames have as many index labels as rows and rows as long as the
column-label list; theorems that need this state it as a hypothesis. -/
structure DataFrame where
  index : List Val
  columns : List Val
  rows : List (List Val)
deriving DecidableEq

/-- Condition on one row of the loop of get_expected_data_row_locations
(pd_functions.py lines 123-129): the intersection of the expected set with the
row values equals the expected set, i.e. every expected value occurs in the
row. -/
def rowMatches (expectedData : List Val) (row : List Val) : Bool :=
  expectedData.all (fun v => decide (v ∈ row))

/-- The iloc_list accumulated by the loop of get_expected_data_row_locations:
the positions of the rows that hold every expected value, in scan order. -/
def ilocList (df0 : DataFrame) (expectedData : List Val) : List Nat :=
  (List.range df0.rows.length).filter (fun i => rowMatches expectedData (df0.rows.getD i []))

/-- Embeds pd_functions.get_expected_data_row_locations.  Raises when no row
matches; otherwise returns the index labels at the matching positions when
return_index is true, and the integer positions themselves when it is false
(the sum type separates the two result shapes the Python function can take). -/
def getExpectedDataRowLocations (df0 : DataFrame) (expectedData : List Val)
    (returnIndex : Bool) : Except PyError (List Nat ⊕ List Val) :=
  let ilocs := ilocList df0 expectedData
  if ilocs.isEmpty then .error (.unableToIdentifyDataRow expectedData)
  else if returnIndex then
    .ok (.inr (ilocs.map (fun i => df0.index.getD i Val.null)))
  else .ok (.inl ilocs)

/-- Condition of df.dropna with subset equal to the expected header columns and
how set to all (pd_functions.py line 193): a row is dropped when every cell
sitting under a column label that belongs to the subset is null. -/
def rowAllNullOnCols (header : List Val) (cols : List Val) (row : List Val) : Bool :=
  ((List.range header.length).filter (fun j => decide (header.getD j Val.null ∈ cols))).all
    (fun j => decide (row.getD j Val.null = Val.null))

/-- Position of the first column with the given label, used to embed column
selection by label for the return_only_expected_header_columns branch. -/
def idxOfVal (l : List Val) (v : Val) : Nat :=
  (l.findIdx? (fun x => decide (x = v))).getD 0

/-- Embeds pd_functions.get_main_table_from_df: locate the first row holding
all expected header columns, take the rows strictly below it with that row as
the column labels, optionally drop rows that are null in all expected header
columns, and optionally keep only the expected header columns.  The inr branch
of the match cannot occur because return_index is passed as false. -/
def getMainTableFromDf (df0 : DataFrame) (expectedHeaderColumns : List Val)
    (returnOnlyExpectedHeaderColumns : Bool) (dropNullRowsForHeaderColumns : Bool) :
    Except PyError DataFrame :=
  match getExpectedDataRowLocations df0 expectedHeaderColumns false with
  | .error e => .error e
  | .ok (.inr _) => .error (.unableToIdentifyDataRow expectedHeaderColumns)
  | .ok (.inl ilocs) =>
    let headerIdx := ilocs.headD 0
    let headerRow := df0.rows.getD headerIdx []
    let pairs := (df0.index.drop (headerIdx + 1)).zip (df0.rows.drop (headerIdx + 1))
    let pairs1 := if dropNullRowsForHeaderColumns then
        pairs.filter (fun p => !(rowAllNullOnCols headerRow expectedHeaderColumns p.2))
      else pairs
    let df1 : DataFrame := ⟨pairs1.map (fun p => p.1), headerRow, pairs1.map (fun p => p.2)⟩
    if returnOnlyExpectedHeaderColumns then
      .ok ⟨df1.index, expectedHeaderColumns,
           df1.rows.map (fun r => expectedHeaderColumns.map
             (fun c => r.getD (idxOfVal headerRow c) Val.null))⟩
    else .ok df1

/-- Row-major flattening of a frame as pandas stack produces it: pairs of
(index label, column label) against the cell value, with null cells dropped
(stack defaults to dropna equal true). -/
def stackPairs (df : DataFrame) : List ((Val × Val) × Val) :=
  ((df.index.zip df.rows).map (fun p =>
    (df.columns.zip p.2).filterMap (fun q =>
      if q.2 = Val.null then none else some ((p.1, q.1), q.2)))).flatten

/-- Embeds pd_functions.get_value_locations with explicit state passing: the
second component of the result is what the caller's dataframe holds after the
call.  The function first rebinds the local name to a copy, so the index and
column reassignments of the return_index equal false branch touch only the
copy, and the caller's frame comes back unchanged. -/
def get_value_locations (df0 : DataFrame) (value : Val) (returnIndex : Bool) :
    List (Val × Val) × DataFrame :=
  let dfc := df0
  let dfc := if returnIndex then dfc
    else { dfc with index := (List.range dfc.rows.length).map Val.int,
                    columns := (List.range dfc.columns.length).map Val.int }
  let matched := (stackPairs dfc).filter (fun q => decide (q.2 = value))
  (matched.map (fun q => q.1), df0)

/-! ## Claim theorems for the DataFrame helpers -/

/-- C1: get_expected_data_row_locations with return_index false returns the
strictly increasing list of positions of the rows holding every expected
value, and with return_index true the index labels at those same positions,
whenever at least one row matches (otherwise the function raises). -/
theorem claim_C1 (df0 : DataFrame) (expectedData : List Val)
    (hlen : df0.index.length = df0.rows.length)
    (hne : ilocList df0 expectedData ≠ []) :
    getExpectedDataRowLocations df0 expectedData false =
      .ok (.inl (ilocList df0 expectedData))
    ∧ getExpectedDataRowLocations df0 expectedData true =
        .ok (.inr ((ilocList df0 expectedData).map (fun i => df0.index.getD i Val.null)))
    ∧ (ilocList df0 expectedData).Pairwise (· < ·)
    ∧ ∀ i, i ∈ ilocList df0 expectedData ↔
        i < df0.rows.length ∧ ∀ v ∈ expectedData, v ∈ df0.rows.getD i [] := by
  have hie : (ilocList df0 expectedData).isEmpty = false := by
    simpa [List.isEmpty_iff] using hne
  refine ⟨?_, ?_, ?_, ?_⟩
  · simp [getExpectedDataRowLocations, hie]
  · simp [getExpectedDataRowLocations, hie]
  · exact (List.pairwise_lt_range _).filter _
  · intro i
    simp [ilocList, List.mem_filter, List.mem_range, rowMatches, List.all_eq_true,
      and_comm]

/-- Concrete frame for the claim_C1 instance. -/
def dfC1 : DataFrame := ⟨[Val.int 10], [Val.str "c"], [[Val.str "a"]]⟩

/-- Concrete instance of claim_C1: a one-row frame whose single row holds the
expected value at position zero. -/
theorem claim_C1_w :
    ilocList dfC1 [Val.str "a"] ≠ []
    ∧ getExpectedDataRowLocations dfC1 [Val.str "a"] false =
        .ok (.inl (ilocList dfC1 [Val.str "a"])) :=
  ⟨by decide, (claim_C1 dfC1 [Val.str "a"] (by decide) (by decide)).1⟩

/-- C4: when no row of the frame holds all the expected header columns,
get_main_table_from_df propagates the unable-to-identify-data-row exception
raised by get_expected_data_row_locations. -/
theorem claim_C4 (df0 : DataFrame) (ehc : List Val) (hne : ehc ≠ [])
    (hno : ∀ row ∈ df0.rows, ∃ v ∈ ehc, v ∉ row) :
    getMainTableFromDf df0 ehc false true = .error (.unableToIdentifyDataRow ehc) := by
  have hiloc : ilocList df0 ehc = [] := by
    unfold ilocList
    rw [List.filter_eq_nil_iff]
    intro i hi
    have hi2 : i < df0.rows.length := List.mem_range.mp hi
    have hmem : df0.rows.getD i [] ∈ df0.rows := by
      rw [List.getD_eq_getElem _ _ hi2]
      exact List.getElem_mem hi2
    rcases hno _ hmem with ⟨v, hv1, hv2⟩
    simp only [rowMatches, List.all_eq_true, not_forall]
    exact ⟨v, hv1, by simpa using hv2⟩
  have herr : getExpectedDataRowLocations df0 ehc false =
      .error (.unableToIdentifyDataRow ehc) := by
    simp [getExpectedDataRowLocations, hiloc]
  unfold getMainTableFromDf
  rw [herr]

/-- Concrete frame for the claim_C4 instance. -/
def dfC4 : DataFrame := ⟨[Val.int 0], [Val.str "c"], [[Val.str "x"]]⟩

/-- Concrete instance of claim_C4: the expected header column never occurs. -/
theorem claim_C4_w :
    getMainTableFromDf dfC4 [Val.str "A"] false true =
      .error (.unableToIdentifyDataRow [Val.str "A"]) :=
  claim_C4 dfC4 [Val.str "A"] (by decide) (by decide)

/-- Mapping the second components out of a filtered zip whose test only looks
at the second component gives the filtered second list, when lengths agree. -/
theorem map_snd_filter_zip {α β : Type} (q : β → Bool) :
    ∀ (l1 : List α) (l2 : List β), l1.length = l2.length →
      ((l1.zip l2).filter (fun p => q p.2)).map (fun p => p.2) =
        l2.filter (fun r => q r) := by
  intro l1
  induction l1 with
  | nil =>
    intro l2 h
    cases l2 with
    | nil => simp
    | cons y ys => simp at h
  | cons x xs ih =>
    intro l2 h
    cases l2 with
    | nil => simp at h
    | cons y ys =>
      simp only [List.length_cons] at h
      by_cases hq : q y
      · simp [List.zip_cons_cons, List.filter_cons, hq, ih ys (by omega)]
      · simp [List.zip_cons_cons, List.filter_cons, hq, ih ys (by omega)]

/-- C5: when at least one row holds all the expected header columns,
get_main_table_from_df with the default flags picks the topmost matching row
as the header: the result's column labels are that row's cells, its rows are
exactly the rows strictly below it with the rows that are null in every
expected header column dropped, and its index the matching labels. -/
theorem claim_C5 (df0 : DataFrame) (ehc : List Val)
    (hne : ilocList df0 ehc ≠ [])
    (hlen : df0.index.length = df0.rows.length) :
    ∃ h, h ∈ ilocList df0 ehc ∧ (∀ i ∈ ilocList df0 ehc, h ≤ i) ∧
      getMainTableFromDf df0 ehc false true =
        .ok ⟨(((df0.index.drop (h+1)).zip (df0.rows.drop (h+1))).filter
                (fun p => !(rowAllNullOnCols (df0.rows.getD h []) ehc p.2))).map
                (fun p => p.1),
             df0.rows.getD h [],
             (df0.rows.drop (h+1)).filter
               (fun r => !(rowAllNullOnCols (df0.rows.getD h []) ehc r))⟩ := by
  rcases List.exists_cons_of_ne_nil hne with ⟨a, l, hcons⟩
  have hpw : (ilocList df0 ehc).Pairwise (· < ·) :=
    (List.pairwise_lt_range _).filter _
  refine ⟨(ilocList df0 ehc).headD 0, ?_, ?_, ?_⟩
  · rw [hcons]; simp
  · intro i hi
    rw [hcons] at hi hpw ⊢
    rcases List.mem_cons.mp hi with rfl | hi
    · simp
    · have := (List.pairwise_cons.mp hpw).1 i hi
      simp only [List.headD_cons]
      omega
  · have hok : getExpectedDataRowLocations df0 ehc false =
        .ok (.inl (ilocList df0 ehc)) := by
      have hie : (ilocList df0 ehc).isEmpty = false := by
        simpa [List.isEmpty_iff] using hne
      simp [getExpectedDataRowLocations, hie]
    have hlen2 : (df0.index.drop ((ilocList df0 ehc).headD 0 + 1)).length =
        (df0.rows.drop ((ilocList df0 ehc).headD 0 + 1)).length := by
      simp [List.length_drop, hlen]
    simp only [getMainTableFromDf, hok, Bool.false_eq_true, if_false, if_true]
    rw [map_snd_filter_zip
      (fun r => !(rowAllNullOnCols (df0.rows.getD ((ilocList df0 ehc).headD 0) []) ehc r))
      _ _ hlen2]

/-- Concrete frame for the claim_C5 instance: one junk row, the header row,
one data row and one all-null row. -/
def dfC5 : DataFrame :=
  ⟨[Val.int 0, Val.int 1, Val.int 2, Val.int 3],
   [Val.int 0],
   [[Val.str "junk"], [Val.str "A"], [Val.str "x"], [Val.null]]⟩

/-- Concrete instance of claim_C5 on dfC5. -/
theorem claim_C5_w :
    ∃ h, h ∈ ilocList dfC5 [Val.str "A"]
      ∧ (∀ i ∈ ilocList dfC5 [Val.str "A"], h ≤ i)
      ∧ getMainTableFromDf dfC5 [Val.str "A"] false true =
        .ok ⟨(((dfC5.index.drop (h+1)).zip (dfC5.rows.drop (h+1))).filter
                (fun p => !(rowAllNullOnCols (dfC5.rows.getD h []) [Val.str "A"] p.2))).map
                (fun p => p.1),
             dfC5.rows.getD h [],
             (dfC5.rows.drop (h+1)).filter
               (fun r => !(rowAllNullOnCols (dfC5.rows.getD h []) [Val.str "A"] r))⟩ :=
  claim_C5 dfC5 [Val.str "A"] (by decide) (by decide)

/-- C10: get_value_locations leaves the caller's dataframe unchanged for both
settings of return_index, because the reassignments of index and columns are
applied to the local copy made on entry. -/
theorem claim_C10 (df0 : DataFrame) (value : Val) :
    (get_value_locations df0 value true).2 = df0
    ∧ (get_value_locations df0 value false).2 = df0 :=
  ⟨rfl, rfl⟩

/-! ## base.check_filepath (base.py lines 224-274)

The filesystem is modelled as a Boolean membership test on paths, a snapshot
assumed stable during the call.  Each call to get_current_datetime pops the
next element of a stream of stamps; exhausting the stream models a
non-terminating while-loop, so the embedding returns an Option. -/

/-- Index one past the last slash (Python rfind plus one; zero when absent). -/
def slashSplitPos (cs : List Char) : Nat :=
  match cs.reverse.findIdx? (fun c => decide (c = '/')) with
  | some k => cs.length - k
  | none => 0

/-- Removes trailing slashes. -/
def rstripSlashes (cs : List Char) : List Char :=
  ((cs.reverse).dropWhile (fun c => decide (c = '/'))).reverse

/-- Embeds os.path.split for posix paths: tail is everything after the last
slash, head is what precedes it with trailing slashes stripped unless the head
is all slashes. -/
def os_path_split (fp : String) : String × String :=
  let cs := fp.toList
  let i := slashSplitPos cs
  let head := cs.take i
  let tail := cs.drop i
  let head2 := if head ≠ [] ∧ ¬ (head.all (fun c => decide (c = '/'))) then
      rstripSlashes head
    else head
  (head2.asString, tail.asString)

/-- Embeds os.path.splitext on a basename (no slash in the input here): the
extension starts at the last dot, provided some earlier character of the name
is not a dot (so purely dotted names such as .bashrc keep no extension). -/
def splitext_basename (s : String) : String × String :=
  let cs := s.toList
  match cs.reverse.findIdx? (fun c => decide (c = '.')) with
  | none => (s, "")
  | some k =>
    let d := cs.length - 1 - k
    if (cs.take d).any (fun c => decide (c ≠ '.')) then
      ((cs.take d).asString, (cs.drop d).asString)
    else (s, "")

/-- Embeds os.path.join for posix paths and two components. -/
def os_path_join (a b : String) : String :=
  if b.toList.head? = some '/' then b
  else if a = "" ∨ a.toList.getLast? = some '/' then a ++ b
  else a ++ "/" ++ b

/-- The while-loop of check_filepath: stamp the name with the next datetime
and retry while the stamped path still exists. -/
def checkFilepathLoop (existsFs : String → Bool) (dirname fileName fileExt : String) :
    List String → Option String
  | [] => none
  | stamp :: rest =>
    let newFp := os_path_join dirname (fileName ++ "_" ++ stamp ++ fileExt)
    if existsFs newFp then checkFilepathLoop existsFs dirname fileName fileExt rest
    else some newFp

/-- Embeds base.check_filepath: return the path itself when it does not exist,
otherwise split it into folder, name and extension (folder defaulting to the
current working directory) and loop stamping the name until an unused path is
found. -/
def check_filepath (existsFs : String → Bool) (cwd : String) (stamps : List String)
    (fp : String) : Option String :=
  if ¬ existsFs fp then some fp
  else
    let dirname0 := (os_path_split fp).1
    let fileNameExt := (os_path_split fp).2
    let dirname := if dirname0 = "" then cwd else dirname0
    let fileName := (splitext_basename fileNameExt).1
    let fileExt := (splitext_basename fileNameExt).2
    checkFilepathLoop existsFs dirname fileName fileExt stamps

theorem checkFilepathLoop_spec (existsFs : String → Bool) (dirname fileName fileExt : String) :
    ∀ (stamps : List String) (p : String),
      checkFilepathLoop existsFs dirname fileName fileExt stamps = some p →
      existsFs p = false ∧ ∃ stamp ∈ stamps,
        p = os_path_join dirname (fileName ++ "_" ++ stamp ++ fileExt) := by
  intro stamps
  induction stamps with
  | nil => intro p hp; simp [checkFilepathLoop] at hp
  | cons stamp rest ih =>
    intro p hp
    simp only [checkFilepathLoop] at hp
    by_cases hex : existsFs (os_path_join dirname (fileName ++ "_" ++ stamp ++ fileExt))
    · rw [if_pos hex] at hp
      rcases ih p hp with ⟨h1, st, hst, h2⟩
      exact ⟨h1, st, List.mem_cons_of_mem _ hst, h2⟩
    · rw [if_neg hex] at hp
      have hp2 := Option.some.inj hp
      subst hp2
      exact ⟨by simpa using hex, stamp, List.mem_cons_self _ _, rfl⟩

/-- C6: whenever check_filepath returns a path, that path does not exist in
the filesystem snapshot; when the input path does not exist it is returned
unchanged, and otherwise the result is the input's name extended with one of
the datetime stamps, placed in the input's folder (or the working directory
when the input has no folder part). -/
theorem claim_C6 (existsFs : String → Bool) (cwd : String) (stamps : List String)
    (fp p : String) (hret : check_filepath existsFs cwd stamps fp = some p) :
    existsFs p = false
    ∧ (existsFs fp = false → p = fp)
    ∧ (existsFs fp = true → ∃ stamp ∈ stamps,
        p = os_path_join
              (if (os_path_split fp).1 = "" then cwd else (os_path_split fp).1)
              ((splitext_basename (os_path_split fp).2).1 ++ "_" ++ stamp ++
               (splitext_basename (os_path_split fp).2).2)) := by
  by_cases hex : existsFs fp
  · simp only [check_filepath, hex, not_true, if_neg, ite_false] at hret
    rcases checkFilepathLoop_spec existsFs _ _ _ stamps p hret with ⟨h1, st, hst, h2⟩
    refine ⟨h1, ?_, ?_⟩
    · intro hc; rw [hex] at hc; cases hc
    · intro _; exact ⟨st, hst, h2⟩
  · simp only [check_filepath, hex, not_false_iff, if_pos, ite_true] at hret
    have hp := Option.some.inj hret
    subst hp
    refine ⟨by simpa using hex, fun _ => rfl, ?_⟩
    intro hc
    rw [hc] at hex
    exact absurd rfl hex

/-- Concrete instance of claim_C6: a filesystem holding only out.txt, so the
stamped alternative in the working directory is fresh. -/
theorem claim_C6_w :
    check_filepath (fun s => decide (s = "out.txt")) "/tmp" ["20260101"] "out.txt" =
      some "/tmp/out_20260101.txt"
    ∧ (fun s : String => decide (s = "out.txt")) "/tmp/out_20260101.txt" = false := by
  have h1 : check_filepath (fun s => decide (s = "out.txt")) "/tmp" ["20260101"] "out.txt" =
      some "/tmp/out_20260101.txt" := by decide
  exact ⟨h1, (claim_C6 _ "/tmp" ["20260101"] "out.txt" _ h1).1⟩

/-! ## dblib.pymssql: PyMsSQL CRUD error flow

The engine is modelled by function parameters: execQuery gives the outcome of
self.execute_query on a statement string, countTableNrows the outcome of
self.count_table_nrows, and toSql the outcome of df.to_sql inside
insert_dataframe.  Update data (a dict of columns) and dataframes are both
column-ordered association lists from column name to cell list. -/

/-- Column lookup by name, as indexing a frame with a column label. -/
def lookupCol (data : List (String × List Val)) (k : String) : List Val :=
  match data.find? (fun p => decide (p.1 = k)) with
  | some p => p.2
  | none => []

/-- Python str() of a cell value as interpolated into the SQL statements. -/
def valPyStr : Val → String
  | .str s => s
  | .int n => toString n
  | .null => "nan"

/-- One UPDATE statement of PyMsSQL.update (pymssql.py lines 478-501): SET all
non-identifier columns to the quoted row values, WHERE the identifier columns
equal the unquoted row values. -/
def buildUpdateStatement (tableName : String) (idCols : List String)
    (data : List (String × List Val)) (i : Nat) : String :=
  let updateCols := data.filter (fun p => decide (p.1 ∉ idCols))
  let conditions := String.intercalate " AND "
    (idCols.map (fun c => c ++ " = " ++ valPyStr ((lookupCol data c).getD i Val.null)))
  let updates := String.intercalate ", "
    (updateCols.map (fun p => p.1 ++ " = " ++ "'" ++ valPyStr (p.2.getD i Val.null) ++ "'"))
  "UPDATE " ++ tableName ++ " SET " ++ updates ++ " WHERE " ++ conditions ++ ";"

/-- The per-row list of UPDATE statements; the row count is the length of the
columns of the rectangular input. -/
def updateQueryList (tableName : String) (idCols : List String)
    (data : List (String × List Val)) : List String :=
  let nRows := match data with | [] => 0 | p :: _ => p.2.length
  (List.range nRows).map (buildUpdateStatement tableName idCols data)

/-- Python slicing from the end: l drop all but r, except that index minus
zero slices the whole list. -/
def pySliceFromEnd (l : List String) (r : Nat) : List String :=
  if r = 0 then l else l.drop (l.length - r)

/-- The chunking of PyMsSQL.update (pymssql.py lines 504-515): full blocks of
300 statements joined by newlines, then the final remainder slice. -/
def chunkQueries (queries : List String) : List String :=
  let rep := queries.length / 300
  let remainder := queries.length % 300
  let firstChunks := (List.range rep).map
    (fun i => String.intercalate "\n" ((queries.drop (i * 300)).take 300))
  firstChunks ++ [String.intercalate "\n" (pySliceFromEnd queries remainder)]

/-- Sequentially execute statements, stopping at the first failure, as the
for-loop inside the try-block does. -/
def runQueries (execQuery : String → Except String Unit) : List String → Except String Unit
  | [] => .ok ()
  | q :: qs => match execQuery q with
    | .error e => .error e
    | .ok _ => runQueries execQuery qs

/-- Embeds PyMsSQL.update.  The isinstance list check always passes because
idCols is typed as a list; a missing identifier column raises; then the
chunked statements are executed inside a try whose except only logs, so any
execution failure is swallowed and the method returns normally. -/
def PyMsSQL_update (execQuery : String → Except String Unit) (tableName : String)
    (idCols : List String) (data : List (String × List Val)) : Except PyError Unit :=
  if ¬ (idCols.all (fun c => decide (c ∈ data.map (fun p => p.1)))) then
    .error (.missingIdColumns idCols)
  else
    match runQueries execQuery (chunkQueries (updateQueryList tableName idCols data)) with
    | .ok _ => .ok ()
    | .error _ => .ok ()

/-- One DELETE statement of PyMsSQL.delete (pymssql.py lines 576-590). -/
def buildDeleteStatement (tableName : String) (idCols : List String)
    (df : List (String × List Val)) (i : Nat) : String :=
  let conditions := String.intercalate " AND "
    (idCols.map (fun c => c ++ " = " ++ valPyStr ((lookupCol df c).getD i Val.null)))
  "DELETE FROM " ++ tableName ++ " WHERE " ++ conditions ++ ";"

/-- The newline-joined DELETE script over all rows of the frame. -/
def deleteQuery (tableName : String) (idCols : List String)
    (df : List (String × List Val)) : String :=
  let nRows := match df with | [] => 0 | p :: _ => p.2.length
  String.intercalate "\n" ((List.range nRows).map (buildDeleteStatement tableName idCols df))

/-- Embeds PyMsSQL.delete.  Empty or absent identifier columns raise; the row
count taken before the try-block propagates its failure; the execution of the
script and the recount sit inside a bare except that only logs, so their
failures are swallowed and the method returns normally. -/
def PyMsSQL_delete (execQuery : String → Except String Unit)
    (countTableNrows : Except String Nat) (tableName : String)
    (idCols : List String) (df : List (String × List Val)) : Except PyError Unit :=
  if idCols.isEmpty then .error .emptyIdColumns
  else if ¬ (idCols.all (fun c => decide (c ∈ df.map (fun p => p.1)))) then
    .error (.missingIdColumnsInDf idCols)
  else
    match countTableNrows with
    | .error e => .error (.propagated e)
    | .ok _ =>
      match execQuery (deleteQuery tableName idCols df) with
      | .error _ => .ok ()
      | .ok _ =>
        match countTableNrows with
        | .error _ => .ok ()
        | .ok _ => .ok ()

/-- Embeds PyMsSQL.insert_dataframe: a failure of df.to_sql is caught, logged
and re-raised as a new exception naming the table. -/
def PyMsSQL_insert_dataframe (toSql : Except String Unit) (tableName : String) :
    Except PyError Unit :=
  match toSql with
  | .ok _ => .ok ()
  | .error e => .error (.insertFailed tableName e)

/-- C7: when executing the generated statements fails, update and delete
return normally (the exception is only logged), while insert_dataframe
re-raises a failed insertion as an exception. -/
theorem claim_C7 (execQuery : String → Except String Unit)
    (countTableNrows : Except String Nat) (tableName : String)
    (idCols : List String) (data df : List (String × List Val))
    (toSql : Except String Unit) (eU eD eI : String)
    (hvalU : idCols.all (fun c => decide (c ∈ data.map (fun p => p.1))) = true)
    (hfailU : runQueries execQuery (chunkQueries (updateQueryList tableName idCols data)) =
      .error eU)
    (hvalD1 : idCols ≠ [])
    (hvalD2 : idCols.all (fun c => decide (c ∈ df.map (fun p => p.1))) = true)
    (hcount : ∃ n, countTableNrows = .ok n)
    (hfailD : execQuery (deleteQuery tableName idCols df) = .error eD)
    (hfailI : toSql = .error eI) :
    PyMsSQL_update execQuery tableName idCols data = .ok ()
    ∧ PyMsSQL_delete execQuery countTableNrows tableName idCols df = .ok ()
    ∧ PyMsSQL_insert_dataframe toSql tableName = .error (.insertFailed tableName eI) := by
  refine ⟨?_, ?_, ?_⟩
  · simp only [PyMsSQL_update]
    rw [if_neg (by simp [hvalU]), hfailU]
  · rcases hcount with ⟨n, hn⟩
    simp only [PyMsSQL_delete]
    rw [if_neg (by simpa [List.isEmpty_iff] using hvalD1),
        if_neg (by simp [hvalD2]), hn, hfailD]
  · simp [PyMsSQL_insert_dataframe, hfailI]

/-- Concrete instance of claim_C7: an engine whose every execution fails. -/
theorem claim_C7_w :
    PyMsSQL_update (fun _ => .error "boom") "t" ["id"]
      [("id", [Val.int 1]), ("v", [Val.int 2])] = .ok ()
    ∧ PyMsSQL_delete (fun _ => .error "boom") (.ok 1) "t" ["id"]
        [("id", [Val.int 1]), ("v", [Val.int 2])] = .ok ()
    ∧ PyMsSQL_insert_dataframe (.error "boom") "t" =
        .error (.insertFailed "t" "boom") :=
  claim_C7 (fun _ => .error "boom") (.ok 1) "t" ["id"]
    [("id", [Val.int 1]), ("v", [Val.int 2])] [("id", [Val.int 1]), ("v", [Val.int 2])]
    (.error "boom") "boom" "boom" "boom"
    (by decide) (by rfl) (by decide) (by decide) ⟨1, rfl⟩ (by rfl) (by rfl)

/-! ## base_datetime.ensure_correct_date_format (base_datetime.py lines 67-187)

Only the object-dtype branch is embedded (the claims concern series of date
strings); the datetime64 branch only logs and the remaining dtypes raise.
The extraction regex - case-insensitive, one group matching a month token or
one-to-four digits, an optional single delimiter out of dash, slash, dot and
space, a second such group, another optional delimiter, and a final group of
one-to-four digits - is embedded as an explicit backtracking matcher with the
same alternative order (month abbreviations, then month names, then greedy
digit runs) and search semantics (leftmost start position wins). -/

/-- calendar.month_abbr entries one to twelve. -/
def monthAbbrs : List String :=
  ["Jan", "Feb", "Mar", "Apr", "May", "Jun",
   "Jul", "Aug", "Sep", "Oct", "Nov", "Dec"]

/-- calendar.month_name entries one to twelve. -/
def monthNames : List String :=
  ["January", "February", "March", "April", "May", "June",
   "July", "August", "September", "October", "November", "December"]

/-- The month number a token stands for in the given table, as the replace
dictionaries MONTH_ABBR_TO_NUMBER and MONTH_NAME_TO_NUMBER give it. -/
def monthLookup (tbl : List String) (s : String) : Option Nat :=
  match tbl.findIdx? (fun t => decide (t = s)) with
  | some k => some (k + 1)
  | none => none

/-- Python str.title over the characters: the first letter of every
alphabetic run is upcased and the rest of the run downcased. -/
def pyTitleAux : List Char → Bool → List Char
  | [], _ => []
  | c :: cs, prevAlpha =>
    if c.isAlpha then
      (if prevAlpha then c.toLower else c.toUpper) :: pyTitleAux cs true
    else c :: pyTitleAux cs false

/-- Python str.title. -/
def pyTitle (s : String) : String := (pyTitleAux s.toList false).asString

/-- First success of f over the elements in order: the backtracking order of
a regex alternation. -/
def firstSome : List α → (α → Option β) → Option β
  | [], _ => none
  | x :: xs, f =>
    match f x with
    | some b => some b
    | none => firstSome xs f

/-- Case-insensitive literal-token match at the head of the input; the
captured text is the original characters. -/
def tokenCandidate (cs : List Char) (t : String) : Option (String × List Char) :=
  let tl := t.toList
  if decide ((cs.take tl.length).map Char.toLower = tl.map Char.toLower) then
    some ((cs.take tl.length).asString, cs.drop tl.length)
  else none

/-- Candidates for a greedy one-to-four digit run at the head of the input,
longest first, as the regex quantifier backtracks. -/
def digitCandidates (cs : List Char) : List (String × List Char) :=
  let run := cs.takeWhile Char.isDigit
  (([4, 3, 2, 1].filter (fun k => decide (k ≤ run.length))).map
    (fun k => ((run.take k).asString, cs.drop k)))

/-- Candidates for one month-or-digits group, in the alternation order of the
pattern: the twelve abbreviations, the twelve full names, then digit runs. -/
def groupCandidates (cs : List Char) : List (String × List Char) :=
  ((monthAbbrs ++ monthNames).filterMap (tokenCandidate cs)) ++ digitCandidates cs

/-- Candidates for the optional single delimiter, consuming first (greedy). -/
def delimCandidates (cs : List Char) : List (List Char) :=
  match cs with
  | [] => [[]]
  | c :: rest =>
    if c = '-' ∨ c = '/' ∨ c = '.' ∨ c = ' ' then [rest, c :: rest] else [c :: rest]

/-- Attempts the full pattern at one start position, backtracking through the
candidate lists in preference order. -/
def matchAt (cs : List Char) : Option (String × String × String) :=
  firstSome (groupCandidates cs) (fun g1 =>
    firstSome (delimCandidates g1.2) (fun r2 =>
      firstSome (groupCandidates r2) (fun g2 =>
        firstSome (delimCandidates g2.2) (fun r4 =>
          firstSome (digitCandidates r4) (fun g3 =>
            some (g1.1, g2.1, g3.1))))))

/-- re.search: try each start position from the left. -/
def searchFrom : List Char → Option (String × String × String)
  | [] => none
  | c :: rest =>
    match matchAt (c :: rest) with
    | some r => some r
    | none => searchFrom rest

/-- Series.str.extract of the three-group pattern on one string: the three
captured groups, or all-NaN when nothing matches. -/
def extractOne (s : String) : Option (String × String × String) := searchFrom s.toList

/-- Series.str.extract of a leading one-to-four digit run, giving NaN when
the string does not start with a digit. -/
def pyDigitExtract (t : String) : Option String :=
  let run := t.toList.takeWhile Char.isDigit
  if run.isEmpty then none else some ((run.take 4).asString)

/-- The three raw columns for one value: with no delimiter the regex groups,
otherwise str.split into pieces (missing pieces become NaN) with the third
piece reduced to its leading digits. -/
def extractParts : Option String → String → Option String × Option String × Option String
  | none, s =>
    match extractOne s with
    | some (a, b, c) => (some a, some b, some c)
    | none => (none, none, none)
  | some d, s =>
    let pieces := s.splitOn d
    (pieces.get? 0, pieces.get? 1, (pieces.get? 2).bind pyDigitExtract)

/-- One row of yr_mth_day_df after the rename, holding the day, month and
year cells. -/
structure DMY where
  day : Option String
  mth : Option String
  yr : Option String
deriving DecidableEq

/-- The rename for ymd: year, month, day. -/
def arrYmd (t : Option String × Option String × Option String) : DMY :=
  ⟨t.2.2, t.2.1, t.1⟩

/-- The rename for mdy: month, day, year. -/
def arrMdy (t : Option String × Option String × Option String) : DMY :=
  ⟨t.2.1, t.1, t.2.2⟩

/-- The rename for dmy: day, month, year. -/
def arrDmy (t : Option String × Option String × Option String) : DMY :=
  ⟨t.1, t.2.1, t.2.2⟩

/-- The renamed dataframe: the unique non-null values of the series (dropna
then drop_duplicates) extracted into three columns and labelled according to
the format key. -/
def extractedRows (series : List (Option String)) (delimiter : Option String)
    (fmtKey : String) : List DMY :=
  if fmtKey = "ymd" then
    (dedupFirst (series.filterMap id)).map (fun s => arrYmd (extractParts delimiter s))
  else if fmtKey = "mdy" then
    (dedupFirst (series.filterMap id)).map (fun s => arrMdy (extractParts delimiter s))
  else
    (dedupFirst (series.filterMap id)).map (fun s => arrDmy (extractParts delimiter s))

/-- Position of the day column among the renamed columns, as
columns.get_loc gives it: two for ymd, one for mdy, zero for dmy. -/
def colIdOfFmt (fmtKey : String) : Nat :=
  if fmtKey = "ymd" then 2 else if fmtKey = "mdy" then 1 else 0

/-- Series.isin on an optional cell: NaN is in no list. -/
def optIsIn (x : Option String) (tbl : List String) : Bool :=
  match x with
  | some s => decide (s ∈ tbl)
  | none => false

/-- Series.replace with a month-to-number dictionary on one cell; a matched
token becomes its number (rendered as the numeral to_numeric reparses). -/
def replaceMonth (tbl : List String) (x : Option String) : Option String :=
  x.map (fun s =>
    match monthLookup tbl s with
    | some n => toString n
    | none => s)

/-- The month column put in title case (the source overwrites the column). -/
def rows1Of (rows : List DMY) : List DMY :=
  rows.map (fun r => { r with mth := r.mth.map pyTitle })

/-- The month column after the conditional replace: abbreviations are mapped
when any cell is an abbreviation, else full names when any cell is a full
name, else nothing. -/
def rows2Of (rows : List DMY) : List DMY :=
  if (rows1Of rows).any (fun r => optIsIn r.mth monthAbbrs) then
    (rows1Of rows).map (fun r => { r with mth := replaceMonth monthAbbrs r.mth })
  else if (rows1Of rows).any (fun r => optIsIn r.mth monthNames) then
    (rows1Of rows).map (fun r => { r with mth := replaceMonth monthNames r.mth })
  else rows1Of rows

/-- Parse a non-empty all-digit string into its number, as pd.to_numeric
does on the strings that reach it here: regex captures (digit runs or month
tokens) and month numbers produced by the replace step. -/
def pyToNat (s : String) : Option Nat :=
  if s.toList ≠ [] ∧ s.toList.all Char.isDigit then
    some (s.toList.foldl (fun acc c => acc * 10 + (c.toNat - 48)) 0)
  else none

/-- pd.to_numeric with errors raise on one cell: NaN passes through, digit
strings parse, anything else raises. -/
def toNumericCell (x : Option String) : Except PyError (Option Nat) :=
  match x with
  | none => .ok none
  | some s =>
    match pyToNat s with
    | some n => .ok (some n)
    | none => .error .toNumericFailure

/-- One row of yr_mth_day_df after apply(pd.to_numeric). -/
structure NumRow where
  day : Option Nat
  mth : Option Nat
  yr : Option Nat
deriving DecidableEq

/-- apply(pd.to_numeric) on one row. -/
def toNumRow (r : DMY) : Except PyError NumRow :=
  match toNumericCell r.day with
  | .error e => .error e
  | .ok d =>
    match toNumericCell r.mth with
    | .error e => .error e
    | .ok m =>
      match toNumericCell r.yr with
      | .error e => .error e
      | .ok y => .ok ⟨d, m, y⟩

/-- Elementwise fallible map, stopping at the first failing cell, as
apply(pd.to_numeric, errors raise) over the frame. -/
def mapExcept (f : α → Except ε β) : List α → Except ε (List β)
  | [] => .ok []
  | x :: xs =>
    match f x with
    | .error e => .error e
    | .ok y =>
      match mapExcept f xs with
      | .error e => .error e
      | .ok ys => .ok (y :: ys)

/-- One bound criterion: NaN fails every comparison. -/
def critRange (x : Option Nat) (lo hi : Nat) : Bool :=
  match x with
  | some v => decide (lo ≤ v) && decide (v ≤ hi)
  | none => false

/-- The All Criterion column: day one to thirty-one, month one to twelve,
year zero to nine thousand nine hundred ninety-nine. -/
def allCriterion (r : NumRow) : Bool :=
  critRange r.day 1 31 && critRange r.mth 1 12 && critRange r.yr 0 9999

/-- The body of ensure_correct_date_format after the rename: the day-is-month
branches (raising the incorrect-format errors naming the alternatives), then
numeric conversion, then the bounds criteria. -/
def checkRows (dateFormat fmtKey : String) (rows : List DMY) (colId : Nat) :
    Except PyError Unit :=
  if (rows2Of rows).all (fun r => optIsIn r.day (monthNames ++ monthAbbrs)) ∧ colId = 1 then
    .error (.incorrectDateFormat dateFormat ["dmy", "ymd"])
  else if (rows2Of rows).all (fun r => optIsIn r.day (monthNames ++ monthAbbrs)) ∧ colId = 0 then
    .error (.incorrectDateFormat dateFormat ["mdy"])
  else
    match mapExcept toNumRow (rows2Of rows) with
    | .error e => .error e
    | .ok numRows =>
      if numRows.all allCriterion then .ok ()
      else .error (.dateSeriesNotFormat fmtKey)

/-- Python str.strip: whitespace removed from both ends. -/
def strTrim (s : String) : String :=
  (((s.toList.dropWhile Char.isWhitespace).reverse.dropWhile Char.isWhitespace).reverse).asString

/-- Python str.lower over the characters. -/
def strLower (s : String) : String := (s.toList.map Char.toLower).asString

/-- The format key as the source computes it: date_format.strip().lower(). -/
def fmtKeyOf (dateFormat : String) : String := strLower (strTrim dateFormat)

/-- Embeds the object-dtype branch of ensure_correct_date_format: extract the
three columns, rename them per the format (raising NotImplementedError on an
unknown format), then run the day-is-month, numeric and bounds checks. -/
def ensure_correct_date_format (dateSeries : List (Option String))
    (dateFormat : String) (delimiter : Option String) : Except PyError Unit :=
  if fmtKeyOf dateFormat = "ymd" ∨ fmtKeyOf dateFormat = "mdy" ∨
      fmtKeyOf dateFormat = "dmy" then
    checkRows dateFormat (fmtKeyOf dateFormat)
      (extractedRows dateSeries delimiter (fmtKeyOf dateFormat))
      (colIdOfFmt (fmtKeyOf dateFormat))
  else .error .notImplementedDateFormat

/-! ## Supporting lemmas for the date-format claims -/

theorem firstSome_eq_some {l : List α} {f : α → Option β} {b : β}
    (h : firstSome l f = some b) : ∃ a ∈ l, f a = some b := by
  induction l with
  | nil => simp [firstSome] at h
  | cons x xs ih =>
    simp only [firstSome] at h
    cases hx : f x with
    | some c =>
      rw [hx] at h
      exact ⟨x, List.mem_cons_self _ _, hx.trans h⟩
    | none =>
      rw [hx] at h
      rcases ih h with ⟨a, ha, hfa⟩
      exact ⟨a, List.mem_cons_of_mem _ ha, hfa⟩

theorem digitCandidates_spec {cs : List Char} {g : String × List Char}
    (h : g ∈ digitCandidates cs) :
    g.1.toList ≠ [] ∧ g.1.toList.all Char.isDigit = true := by
  simp only [digitCandidates, List.mem_map, List.mem_filter] at h
  rcases h with ⟨k, ⟨hk4, hkle⟩, rfl⟩
  have hk1 : 1 ≤ k := by
    simp only [List.mem_cons, List.not_mem_nil, or_false] at hk4
    rcases hk4 with rfl | rfl | rfl | rfl <;> omega
  have hkle2 : k ≤ (cs.takeWhile Char.isDigit).length := by simpa using hkle
  constructor
  · show (cs.takeWhile Char.isDigit).take k ≠ []
    have : 0 < ((cs.takeWhile Char.isDigit).take k).length := by
      rw [List.length_take]; omega
    exact List.length_pos.mp this
  · show ((cs.takeWhile Char.isDigit).take k).all Char.isDigit = true
    rw [List.all_eq_true]
    intro x hx
    exact List.mem_takeWhile_imp (List.mem_of_mem_take hx)

theorem matchAt_digits {cs : List Char} {t : String × String × String}
    (h : matchAt cs = some t) :
    t.2.2.toList ≠ [] ∧ t.2.2.toList.all Char.isDigit = true := by
  unfold matchAt at h
  rcases firstSome_eq_some h with ⟨g1, _, h⟩
  rcases firstSome_eq_some h with ⟨r2, _, h⟩
  rcases firstSome_eq_some h with ⟨g2, _, h⟩
  rcases firstSome_eq_some h with ⟨r4, _, h⟩
  rcases firstSome_eq_some h with ⟨g3, hg3, h⟩
  have ht := Option.some.inj h
  subst ht
  exact digitCandidates_spec hg3

theorem searchFrom_digits :
    ∀ {cs : List Char} {t : String × String × String}, searchFrom cs = some t →
      t.2.2.toList ≠ [] ∧ t.2.2.toList.all Char.isDigit = true := by
  intro cs
  induction cs with
  | nil => intro t h; simp [searchFrom] at h
  | cons c rest ih =>
    intro t h
    simp only [searchFrom] at h
    cases hm : matchAt (c :: rest) with
    | some r =>
      rw [hm] at h
      have hrt := Option.some.inj h
      subst hrt
      exact matchAt_digits hm
    | none =>
      rw [hm] at h
      exact ih h

theorem extractOne_digits {s : String} {t : String × String × String}
    (h : extractOne s = some t) :
    t.2.2.toList ≠ [] ∧ t.2.2.toList.all Char.isDigit = true :=
  searchFrom_digits h

theorem tokensNotDigits : ∀ u ∈ monthNames ++ monthAbbrs,
    u.toList.all Char.isDigit = false := by decide

theorem rows2Of_all_day (rows : List DMY) :
    (rows2Of rows).all (fun r => optIsIn r.day (monthNames ++ monthAbbrs)) =
      rows.all (fun r => optIsIn r.day (monthNames ++ monthAbbrs)) := by
  unfold rows2Of rows1Of
  by_cases hA : (rows.map (fun r => { r with mth := r.mth.map pyTitle })).any
      (fun r => optIsIn r.mth monthAbbrs)
  · rw [if_pos hA, List.all_map, List.all_map]; rfl
  · rw [if_neg hA]
    by_cases hB : (rows.map (fun r => { r with mth := r.mth.map pyTitle })).any
        (fun r => optIsIn r.mth monthNames)
    · rw [if_pos hB, List.all_map, List.all_map]; rfl
    · rw [if_neg hB, List.all_map]; rfl

theorem checkRows_day_error (dateFormat fmtKey : String) (rows : List DMY)
    (hall : rows.all (fun r => optIsIn r.day (monthNames ++ monthAbbrs)) = true) :
    checkRows dateFormat fmtKey rows 0 =
      .error (.incorrectDateFormat dateFormat ["mdy"])
    ∧ checkRows dateFormat fmtKey rows 1 =
      .error (.incorrectDateFormat dateFormat ["dmy", "ymd"]) := by
  have h2 : (rows2Of rows).all (fun r => optIsIn r.day (monthNames ++ monthAbbrs)) = true := by
    rw [rows2Of_all_day]; exact hall
  constructor
  · unfold checkRows
    rw [if_neg (fun hc => absurd hc.2 (by decide)), if_pos ⟨h2, rfl⟩]
  · unfold checkRows
    rw [if_pos ⟨h2, rfl⟩]

theorem mem_rows2Of_fixed {rows : List DMY} {r : DMY} (hr : r ∈ rows)
    (h1 : { r with mth := r.mth.map pyTitle } = r)
    (h2 : { r with mth := replaceMonth monthAbbrs r.mth } = r)
    (h3 : { r with mth := replaceMonth monthNames r.mth } = r) :
    r ∈ rows2Of rows := by
  have hr1 : r ∈ rows1Of rows := List.mem_map.mpr ⟨r, hr, h1⟩
  unfold rows2Of
  by_cases hA : (rows1Of rows).any (fun r => optIsIn r.mth monthAbbrs)
  · rw [if_pos hA]
    exact List.mem_map.mpr ⟨r, hr1, h2⟩
  · rw [if_neg hA]
    by_cases hB : (rows1Of rows).any (fun r => optIsIn r.mth monthNames)
    · rw [if_pos hB]
      exact List.mem_map.mpr ⟨r, hr1, h3⟩
    · rw [if_neg hB]
      exact hr1

theorem mapExcept_error {f : α → Except ε β} :
    ∀ {l : List α} {e : ε}, mapExcept f l = .error e → ∃ a ∈ l, f a = .error e := by
  intro l
  induction l with
  | nil => intro e h; simp [mapExcept] at h
  | cons x xs ih =>
    intro e h
    simp only [mapExcept] at h
    cases hx : f x with
    | error e2 =>
      rw [hx] at h
      have h2 : (Except.error e2 : Except ε (List β)) = Except.error e := h
      have he := Except.error.inj h2
      exact ⟨x, List.mem_cons_self _ _, by rw [hx, he]⟩
    | ok y =>
      rw [hx] at h
      cases hxs : mapExcept f xs with
      | error e2 =>
        rw [hxs] at h
        have h2 : (Except.error e2 : Except ε (List β)) = Except.error e := h
        have he := Except.error.inj h2
        rcases ih (by rw [hxs, he]) with ⟨a, ha, hfa⟩
        exact ⟨a, List.mem_cons_of_mem _ ha, hfa⟩
      | ok ys =>
        rw [hxs] at h
        have h2 : (Except.ok (y :: ys) : Except ε (List β)) = Except.error e := h
        cases h2

theorem mapExcept_ok_mem {f : α → Except ε β} :
    ∀ {l : List α} {out : List β}, mapExcept f l = .ok out →
      ∀ a ∈ l, ∃ b ∈ out, f a = .ok b := by
  intro l
  induction l with
  | nil => intro out _ a ha; exact absurd ha (List.not_mem_nil a)
  | cons x xs ih =>
    intro out h a ha
    simp only [mapExcept] at h
    cases hx : f x with
    | error e2 =>
      rw [hx] at h
      have h2 : (Except.error e2 : Except ε (List β)) = Except.ok out := h
      cases h2
    | ok y =>
      rw [hx] at h
      cases hxs : mapExcept f xs with
      | error e2 =>
        rw [hxs] at h
        have h2 : (Except.error e2 : Except ε (List β)) = Except.ok out := h
        cases h2
      | ok ys =>
        rw [hxs] at h
        have h2 : (Except.ok (y :: ys) : Except ε (List β)) = Except.ok out := h
        have hout := Except.ok.inj h2
        subst hout
        rcases List.mem_cons.mp ha with rfl | ha2
        · exact ⟨y, List.mem_cons_self _ _, hx⟩
        · rcases ih hxs a ha2 with ⟨b, hb, hfb⟩
          exact ⟨b, List.mem_cons_of_mem _ hb, hfb⟩

theorem toNumericCell_error {x : Option String} {e : PyError}
    (h : toNumericCell x = .error e) : e = .toNumericFailure := by
  cases x with
  | none => simp [toNumericCell] at h
  | some s =>
    simp only [toNumericCell] at h
    cases hn : pyToNat s with
    | some n => rw [hn] at h; cases h
    | none => rw [hn] at h; exact (Except.error.inj h).symm

theorem toNumRow_error {r : DMY} {e : PyError}
    (h : toNumRow r = .error e) : e = .toNumericFailure := by
  simp only [toNumRow] at h
  cases hd : toNumericCell r.day with
  | error e2 =>
    rw [hd] at h
    exact (Except.error.inj h) ▸ toNumericCell_error hd
  | ok d =>
    rw [hd] at h
    cases hm : toNumericCell r.mth with
    | error e2 =>
      rw [hm] at h
      exact (Except.error.inj h) ▸ toNumericCell_error hm
    | ok m =>
      rw [hm] at h
      cases hy : toNumericCell r.yr with
      | error e2 =>
        rw [hy] at h
        exact (Except.error.inj h) ▸ toNumericCell_error hy
      | ok y => rw [hy] at h; cases h

/-! ## Claim theorems for the date-format validator -/

/-- C2: over an object-dtype series with at least one non-null value, when
every value of the day column (the part the chosen format designates as the
day) is a month name or month abbreviation, ensure_correct_date_format raises
the error declaring that format incorrect and naming the plausible
alternative orderings (mdy for dmy, and dmy with ymd for mdy; for ymd the day
column holds only digit captures, so the situation cannot arise). -/
theorem claim_C2 (dateSeries : List (Option String)) (dateFormat : String)
    (hfmt : dateFormat = "dmy" ∨ dateFormat = "mdy" ∨ dateFormat = "ymd")
    (hne : dedupFirst (dateSeries.filterMap id) ≠ [])
    (hday : ∀ r ∈ extractedRows dateSeries none dateFormat,
        optIsIn r.day (monthNames ++ monthAbbrs) = true) :
    ensure_correct_date_format dateSeries dateFormat none =
      .error (.incorrectDateFormat dateFormat
        (if dateFormat = "mdy" then ["dmy", "ymd"] else ["mdy"])) := by
  rcases hfmt with rfl | rfl | rfl
  · -- dmy: the day column sits at position zero
    unfold ensure_correct_date_format
    rw [show fmtKeyOf "dmy" = "dmy" from by decide, if_pos (by decide),
        show colIdOfFmt "dmy" = 0 from by decide, if_neg (by decide)]
    exact (checkRows_day_error "dmy" "dmy" _
      (List.all_eq_true.mpr (by simpa using hday))).1
  · -- mdy: the day column sits at position one
    unfold ensure_correct_date_format
    rw [show fmtKeyOf "mdy" = "mdy" from by decide, if_pos (by decide),
        show colIdOfFmt "mdy" = 1 from by decide, if_pos rfl]
    exact (checkRows_day_error "mdy" "mdy" _
      (List.all_eq_true.mpr (by simpa using hday))).2
  · -- ymd: the day column is the third regex group, always a digit capture,
    -- so the hypothesis is contradictory on a non-empty series
    exfalso
    rcases List.exists_cons_of_ne_nil hne with ⟨a, l, hcons⟩
    have hamem : a ∈ dedupFirst (dateSeries.filterMap id) := by
      rw [hcons]; exact List.mem_cons_self _ _
    have hrmem : arrYmd (extractParts none a) ∈ extractedRows dateSeries none "ymd" := by
      unfold extractedRows
      rw [if_pos rfl]
      exact List.mem_map.mpr ⟨a, hamem, rfl⟩
    have hd := hday _ hrmem
    cases he : extractOne a with
    | none =>
      have hnone : (arrYmd (extractParts none a)).day = none := by
        simp [extractParts, he, arrYmd]
      rw [hnone] at hd
      exact absurd hd (by decide)
    | some t0 =>
      obtain ⟨x, y, z⟩ := t0
      have hdayeq : (arrYmd (extractParts none a)).day = some z := by
        simp [extractParts, he, arrYmd]
      have hdig := extractOne_digits he
      rw [hdayeq] at hd
      have hz : z ∈ monthNames ++ monthAbbrs := by
        simpa [optIsIn] using hd
      have hfalse := tokensNotDigits z hz
      have htrue := hdig.2
      rw [htrue] at hfalse
      exact Bool.noConfusion hfalse

/-- Concrete instance of claim_C2: under mdy the day part of 05-Jan-2020 is
the month token Jan, and the validator names dmy and ymd as alternatives. -/
theorem claim_C2_w :
    dedupFirst (([some "05-Jan-2020"] : List (Option String)).filterMap id) ≠ []
    ∧ ensure_correct_date_format [some "05-Jan-2020"] "mdy" none =
        .error (.incorrectDateFormat "mdy" ["dmy", "ymd"]) := by
  refine ⟨by decide, ?_⟩
  have h := claim_C2 [some "05-Jan-2020"] "mdy" (Or.inr (Or.inl rfl))
    (by decide) (by decide)
  rw [if_pos rfl] at h
  exact h

/-- C3: any object-dtype series containing the value 31-13-2020 is rejected
by ensure_correct_date_format under dmy: either another cell already fails
numeric conversion, or the bounds check trips on the parsed month 13, which
violates the one-to-twelve month criterion. -/
theorem claim_C3 (dateSeries : List (Option String))
    (h : some "31-13-2020" ∈ dateSeries) :
    ensure_correct_date_format dateSeries "dmy" none = .error .toNumericFailure
    ∨ ensure_correct_date_format dateSeries "dmy" none =
        .error (.dateSeriesNotFormat "dmy") := by
  have hmem0 : "31-13-2020" ∈ dedupFirst (dateSeries.filterMap id) :=
    mem_dedupFirst.mpr (List.mem_filterMap.mpr ⟨some "31-13-2020", h, rfl⟩)
  have hrowmem : (⟨some "31", some "13", some "2020"⟩ : DMY) ∈
      extractedRows dateSeries none "dmy" := by
    unfold extractedRows
    rw [if_neg (by decide), if_neg (by decide)]
    exact List.mem_map.mpr ⟨"31-13-2020", hmem0, by decide⟩
  have hrow2 : (⟨some "31", some "13", some "2020"⟩ : DMY) ∈
      rows2Of (extractedRows dateSeries none "dmy") :=
    mem_rows2Of_fixed hrowmem (by decide) (by decide) (by decide)
  have hdayfalse : (rows2Of (extractedRows dateSeries none "dmy")).all
      (fun r => optIsIn r.day (monthNames ++ monthAbbrs)) = false := by
    cases hb : (rows2Of (extractedRows dateSeries none "dmy")).all
        (fun r => optIsIn r.day (monthNames ++ monthAbbrs)) with
    | false => rfl
    | true => exact absurd (List.all_eq_true.mp hb _ hrow2) (by decide)
  unfold ensure_correct_date_format
  rw [show fmtKeyOf "dmy" = "dmy" from by decide, if_pos (by decide),
      show colIdOfFmt "dmy" = 0 from by decide]
  unfold checkRows
  rw [if_neg (fun hc => by rw [hdayfalse] at hc; exact Bool.noConfusion hc.1),
      if_neg (fun hc => by rw [hdayfalse] at hc; exact Bool.noConfusion hc.1)]
  cases hmap : mapExcept toNumRow (rows2Of (extractedRows dateSeries none "dmy")) with
  | error e =>
    obtain ⟨a, hamem, ha⟩ := mapExcept_error hmap
    have he := toNumRow_error ha
    left
    rw [he]
  | ok numRows =>
    obtain ⟨b, hbmem, hb⟩ := mapExcept_ok_mem hmap _ hrow2
    have hbval : b = ⟨some 31, some 13, some 2020⟩ := by
      have hc : toNumRow ⟨some "31", some "13", some "2020"⟩ =
          .ok ⟨some 31, some 13, some 2020⟩ := by rfl
      rw [hc] at hb
      exact (Except.ok.inj hb).symm
    subst hbval
    have hcrit : numRows.all allCriterion = false := by
      cases hb2 : numRows.all allCriterion with
      | false => rfl
      | true => exact absurd (List.all_eq_true.mp hb2 _ hbmem) (by decide)
    right
    show (if numRows.all allCriterion then (Except.ok () : Except PyError Unit)
          else .error (.dateSeriesNotFormat "dmy")) =
        .error (.dateSeriesNotFormat "dmy")
    simp [hcrit]

/-- Concrete instance of claim_C3: the singleton series around 31-13-2020. -/
theorem claim_C3_w :
    some "31-13-2020" ∈ [some "31-13-2020"]
    ∧ (ensure_correct_date_format [some "31-13-2020"] "dmy" none =
         .error .toNumericFailure
       ∨ ensure_correct_date_format [some "31-13-2020"] "dmy" none =
         .error (.dateSeriesNotFormat "dmy")) :=
  ⟨by decide, claim_C3 [some "31-13-2020"] (by decide)⟩
